import Mathlib

/-!
Verification of `src/data-processing/convert_events.py`, the CSV → JSON
converter for the seminar-schedule website.

The Python source is shallowly embedded: strings are Lean `String`s
(lists of characters), `datetime.strptime` for the eight fixed formats
used by the script is modelled by a small format interpreter
(`runFmt`), dates are triples of naturals compared through the
order-preserving value `y*10000 + m*100 + d`, and the wall-clock
`datetime.now()` is threaded as an explicit parameter `now` in the same
scale.  A row from `csv.DictReader` is an association list from column
name to cell text, the per-row `try/except` of `convert_csv_to_json`
becomes an `Option`-returning row processor, and `list.sort(key, reverse=True)`
(a stable sort) is modelled by Mathlib's `insertionSort` with the
descending key relation, which is stable for the same comparator.

Python's `str.strip` / regex `\s` whitespace class is modelled on its
ASCII part, which covers every character class the script manipulates.
-/

namespace ConvertEvents

/-- ASCII part of Python's `\s` / `str.strip()` whitespace class. -/
def isPySpace (c : Char) : Bool :=
  c = ' ' || c = '\t' || c = '\n' || c = '\r' || c = '\x0b' || c = '\x0c'

/-- Python `str.strip()` on a character list. -/
def pyStripList (l : List Char) : List Char :=
  ((l.dropWhile isPySpace).reverse.dropWhile isPySpace).reverse

/-- Python `str.strip()`. -/
def pyStrip (s : String) : String := ⟨pyStripList s.data⟩

/-- Python `str.lower()` restricted to ASCII letters. -/
def pyLowerChar (c : Char) : Char :=
  if 'A' ≤ c ∧ c ≤ 'Z' then Char.ofNat (c.toNat + 32) else c

/-- Python `str.lower()`. -/
def pyLower (s : String) : String := ⟨s.data.map pyLowerChar⟩

/-- One step of `re.sub(r'\s+', ' ', ·)`: collapse every maximal
whitespace run to a single space character. -/
def collapseWs : List Char → List Char
  | [] => []
  | [c] => [if isPySpace c then ' ' else c]
  | a :: b :: rest =>
    if isPySpace a && isPySpace b then collapseWs (b :: rest)
    else (if isPySpace a then ' ' else a) :: collapseWs (b :: rest)

/-- Model of `clean_text` (source lines 96–103): empty / whitespace-only input
gives `""`; otherwise the stripped text with whitespace runs collapsed. -/
def cleanTextList (l : List Char) : List Char :=
  if pyStripList l = [] then [] else collapseWs (pyStripList l)

/-- Model of `clean_text` on `String`. -/
def clean_text (s : String) : String := ⟨cleanTextList s.data⟩

/-! ### Dates and `strptime` -/

/-- A `datetime.date` as produced by the script's parses. -/
structure PyDate where
  year : Nat
  month : Nat
  day : Nat
deriving DecidableEq, Repr

/-- Order-preserving numeric value of a date: `datetime` comparison is
lexicographic on (year, month, day), and with `month ≤ 12`, `day ≤ 31`
this packing is strictly monotone in that order. -/
def dateVal (d : PyDate) : Nat := d.year * 10000 + d.month * 100 + d.day

/-- Gregorian leap-year rule, as used by `datetime`. -/
def isLeap (y : Nat) : Bool := y % 4 = 0 && (y % 100 ≠ 0 || y % 400 = 0)

/-- Days in a month, as validated by the `datetime` constructor. -/
def daysInMonth (y m : Nat) : Nat :=
  if m = 2 then (if isLeap y then 29 else 28)
  else if m = 4 ∨ m = 6 ∨ m = 9 ∨ m = 11 then 30
  else 31

/-- The validity check performed by the `datetime` constructor
(`MINYEAR = 1`, `MAXYEAR = 9999`). -/
def validDate (y m d : Nat) : Bool :=
  1 ≤ y && y ≤ 9999 && 1 ≤ m && m ≤ 12 && 1 ≤ d && d ≤ daysInMonth y m

/-- Tokens of the `strptime` formats the script uses: `%d`, `%m`, `%Y`,
`%B`, `%b`, literal characters, and format whitespace (which CPython's
`_strptime` compiles to `\s+`). -/
inductive FmtTok where
  | fD | fM | fY | fB | fb | lit (c : Char) | ws
deriving DecidableEq, Repr

/-- Decimal value of a digit string. -/
def digitsToNat (l : List Char) : Nat :=
  l.foldl (fun n c => n * 10 + (c.toNat - 48)) 0

/-- English month names, lowercased, as matched case-insensitively by
`%B` (no name is a prefix of another, so first-match is unambiguous). -/
def monthFullNames : List (List Char × Nat) :=
  [("january".data, 1), ("february".data, 2), ("march".data, 3), ("april".data, 4),
   ("may".data, 5), ("june".data, 6), ("july".data, 7), ("august".data, 8),
   ("september".data, 9), ("october".data, 10), ("november".data, 11), ("december".data, 12)]

/-- English month abbreviations matched by `%b`. -/
def monthAbbrNames : List (List Char × Nat) :=
  [("jan".data, 1), ("feb".data, 2), ("mar".data, 3), ("apr".data, 4),
   ("may".data, 5), ("jun".data, 6), ("jul".data, 7), ("aug".data, 8),
   ("sep".data, 9), ("oct".data, 10), ("nov".data, 11), ("dec".data, 12)]

/-- Match a month name case-insensitively at the head of the input,
returning its value and the remaining input. -/
def findMonth (names : List (List Char × Nat)) (l : List Char) : Option (Nat × List Char) :=
  match names with
  | [] => none
  | (nm, v) :: rest =>
    if nm.isPrefixOf (l.map pyLowerChar) then some (v, l.drop nm.length)
    else findMonth rest l

/-- Format interpreter for `datetime.strptime`, specialised to the
formats the script uses (every numeric field is followed by a non-digit
literal, format whitespace, or end of input, so CPython's regex
alternations for `%d`/`%m` reduce to “take the maximal digit run of
length 1–2 and range-check it”, and `%Y` to “exactly four digits”).
The accumulator is `(year, month, day)`. -/
def runFmt : List FmtTok → List Char → Nat × Nat × Nat → Option (Nat × Nat × Nat)
  | [], [], acc => some acc
  | [], _ :: _, _ => none
  | FmtTok.fD :: ts, l, acc =>
    let ds := l.takeWhile Char.isDigit
    if ds.length = 1 ∨ ds.length = 2 then
      let v := digitsToNat ds
      if 1 ≤ v ∧ v ≤ 31 then runFmt ts (l.dropWhile Char.isDigit) (acc.1, acc.2.1, v) else none
    else none
  | FmtTok.fM :: ts, l, acc =>
    let ds := l.takeWhile Char.isDigit
    if ds.length = 1 ∨ ds.length = 2 then
      let v := digitsToNat ds
      if 1 ≤ v ∧ v ≤ 12 then runFmt ts (l.dropWhile Char.isDigit) (acc.1, v, acc.2.2) else none
    else none
  | FmtTok.fY :: ts, l, acc =>
    let ds := l.takeWhile Char.isDigit
    if ds.length = 4 then runFmt ts (l.dropWhile Char.isDigit) (digitsToNat ds, acc.2.1, acc.2.2)
    else none
  | FmtTok.fB :: ts, l, acc =>
    match findMonth monthFullNames l with
    | some (v, rest) => runFmt ts rest (acc.1, v, acc.2.2)
    | none => none
  | FmtTok.fb :: ts, l, acc =>
    match findMonth monthAbbrNames l with
    | some (v, rest) => runFmt ts rest (acc.1, v, acc.2.2)
    | none => none
  | FmtTok.lit c :: ts, l, acc =>
    match l with
    | x :: xs => if x = c then runFmt ts xs acc else none
    | [] => none
  | FmtTok.ws :: ts, l, acc =>
    match l with
    | x :: xs => if isPySpace x then runFmt ts (xs.dropWhile isPySpace) acc else none
    | [] => none

/-- Model of `datetime.strptime(input, fmt)`: the regex phase (`runFmt`) followed
by the `datetime` constructor's calendar validation. -/
def strptime (fmt : List FmtTok) (l : List Char) : Option PyDate :=
  match runFmt fmt l (1900, 1, 1) with
  | some (y, m, d) => if validDate y m d then some ⟨y, m, d⟩ else none
  | none => none

/-- Format `"%d.%m.%Y"`. -/
def fmtDotted : List FmtTok := [.fD, .lit '.', .fM, .lit '.', .fY]
/-- Format `"%d/%m/%Y"`. -/
def fmtSlashDMY : List FmtTok := [.fD, .lit '/', .fM, .lit '/', .fY]
/-- Format `"%m/%d/%Y"`. -/
def fmtSlashMDY : List FmtTok := [.fM, .lit '/', .fD, .lit '/', .fY]
/-- Format `"%d-%m-%Y"`. -/
def fmtDashDMY : List FmtTok := [.fD, .lit '-', .fM, .lit '-', .fY]
/-- Format `"%Y-%m-%d"`. -/
def fmtIso : List FmtTok := [.fY, .lit '-', .fM, .lit '-', .fD]
/-- Format `"%d %B %Y"`. -/
def fmtDayBFull : List FmtTok := [.fD, .ws, .fB, .ws, .fY]
/-- Format `"%d %b %Y"`. -/
def fmtDayBAbbr : List FmtTok := [.fD, .ws, .fb, .ws, .fY]
/-- Format `"%m-%d-%Y"`. -/
def fmtDashMDY : List FmtTok := [.fM, .lit '-', .fD, .lit '-', .fY]

/-- The `other_formats` fallback list of `parse_date`, in source order. -/
def otherFormats : List (List FmtTok) :=
  [fmtDashDMY, fmtIso, fmtDayBFull, fmtDayBAbbr, fmtDashMDY]

/-- Digits of a natural number (for `strftime`). -/
def natToChars (n : Nat) : List Char := Nat.toDigits 10 n

/-- Left-pad with `'0'` to width `w`. -/
def padZero (w : Nat) (l : List Char) : List Char :=
  List.replicate (w - l.length) '0' ++ l

/-- Model of `date.strftime("%d.%m.%Y")`: zero-padded day and month, four-digit year. -/
def fmtDate (d : PyDate) : String :=
  ⟨padZero 2 (natToChars d.day) ++ '.' :: (padZero 2 (natToChars d.month) ++ '.' :: padZero 4 (natToChars d.year))⟩

/-- The format cutover `datetime(2022, 9, 29)` of `parse_date`. -/
def cutoffVal : Nat := dateVal ⟨2022, 9, 29⟩

/-- Branch 1 of `parse_date` (lines 38–42): if the input matches
`%d.%m.%Y`, return it unchanged. -/
def tryDotted (t : List Char) : Option String :=
  match strptime fmtDotted t with
  | some _ => some ⟨t⟩
  | none => none

/-- Branches 2 and 5 of `parse_date`: accept the `%d/%m/%Y` reading when
it is strictly after the cutover. -/
def tryDMYafterCutoff (t : List Char) : Option String :=
  match strptime fmtSlashDMY t with
  | some d => if cutoffVal < dateVal d then some (fmtDate d) else none
  | none => none

/-- Branches 3 and 4 of `parse_date`: accept the `%m/%d/%Y` reading when
it is on or before the cutover. -/
def tryMDYuptoCutoff (t : List Char) : Option String :=
  match strptime fmtSlashMDY t with
  | some d => if dateVal d ≤ cutoffVal then some (fmtDate d) else none
  | none => none

/-- The `other_formats` loop of `parse_date` (lines 86–91). -/
def tryFormats (fmts : List (List FmtTok)) (t : List Char) : Option String :=
  match fmts with
  | [] => none
  | f :: fs =>
    match strptime f t with
    | some d => some (fmtDate d)
    | none => tryFormats fs t

/-- Model of `parse_date` (lines 21–94): empty input is rejected, the input is
stripped, and the branches are tried in source order (the "ambiguous"
block at lines 62–78 repeats branches 3 and 2, hence the duplicated
attempts). -/
def parse_date (s : String) : Option String :=
  if pyStripList s.data = [] then none
  else
    let t := pyStripList s.data
    match tryDotted t with
    | some r => some r
    | none =>
      match tryDMYafterCutoff t with
      | some r => some r
      | none =>
        match tryMDYuptoCutoff t with
        | some r => some r
        | none =>
          match tryMDYuptoCutoff t with
          | some r => some r
          | none =>
            match tryDMYafterCutoff t with
            | some r => some r
            | none => tryFormats otherFormats t

/-! ### Rows and the per-row pipeline -/

/-- A row of `csv.DictReader`: an association list from column name to
cell text (`row.get(key, '')` is total lookup with `""` default). -/
def Row := List (String × String)

/-- Lookup `row.get(key, '')`. -/
def getCol (row : Row) (key : String) : String :=
  match row.find? (fun p => p.1 = key) with
  | some p => p.2
  | none => ""

/-- Test `key in row` (column presence). -/
def hasCol (row : Row) (key : String) : Bool :=
  (row.find? (fun p => p.1 = key)).isSome

/-- Substring test, for Python's `needle in haystack` on strings. -/
def listHasInfix (needle hay : List Char) : Bool :=
  hay.tails.any (fun t => needle.isPrefixOf t)

/-- Model of `determine_session_type` (lines 105–119). -/
def determine_session_type (row : Row) : String :=
  let typeField := pyLower (clean_text (getCol row "Type of Session"))
  let eventName := pyLower (clean_text (getCol row "Event Name"))
  if typeField = "seminar" ∨ typeField = "talk" ∨ typeField = "presentation" then "seminar"
  else if typeField = "journal club" ∨ typeField = "reading group" then "journal_club"
  else if listHasInfix "reading group".data eventName.data
       ∨ listHasInfix "journal club".data eventName.data then "journal_club"
  else if eventName = "tba" ∨ eventName = "to be announced" ∨ eventName = "" then "seminar"
  else "seminar"

/-- Model of `is_free_slot` (lines 121–128). -/
def is_free_slot (row : Row) : Bool :=
  let presenter := clean_text (getCol row "Presenter")
  let event_name := clean_text (getCol row "Event Name")
  pyLower presenter = "free for booking" || pyLower event_name = "free for booking" ||
    (presenter = "" && event_name = "")

/-- Model of `get_location_info` (lines 130–155); `datetime.now()` is the
injected instant `now`, on the `dateVal` scale. -/
def get_location_info (row : Row) (meetingVal now : Nat) : String :=
  if meetingVal ≤ now then ""
  else
    let room := clean_text (getCol row "Room")
    let zoom := clean_text (getCol row "Zoom Link")
    if room ≠ "" ∧ zoom ≠ "" then room ++ " (Alan Turing Institute) & online"
    else if room ≠ "" then room ++ " (Alan Turing Institute) & online"
    else if zoom ≠ "" then "Online (Zoom)"
    else "TBA"

/-- The detail-policy cutover `datetime(2025, 7, 28)`. -/
def detailCutoffVal : Nat := dateVal ⟨2025, 7, 28⟩

/-- Model of `should_include_detailed_info` (lines 157–163). -/
def should_include_detailed_info (meetingVal : Nat) : Bool :=
  detailCutoffVal < meetingVal

/-- Model of `get_abstract_info` (lines 165–185). -/
def get_abstract_info (row : Row) (meetingVal : Nat) (session_type : String) : Option String :=
  if ¬ should_include_detailed_info meetingVal then none
  else
    let abstract := clean_text (getCol row "Abstract")
    if abstract ≠ "" then some abstract
    else if session_type = "seminar" then some "TBA"
    else none

/-- Model of `get_bio_info` (lines 187–203). -/
def get_bio_info (row : Row) (meetingVal : Nat) (session_type : String) : Option String :=
  if ¬ should_include_detailed_info meetingVal then none
  else if session_type ≠ "seminar" then none
  else
    let bio := clean_text (getCol row "Bio for Speaker")
    if bio ≠ "" then some bio else none

/-- Python `str.split(',')`: split on every comma, keeping empty pieces. -/
def splitComma : List Char → List (List Char)
  | [] => [[]]
  | c :: rest =>
    if c = ',' then [] :: splitComma rest
    else
      match splitComma rest with
      | h :: t => (c :: h) :: t
      | [] => [[c]]

/-- Model of `get_paper_links` (lines 205–220). -/
def get_paper_links (row : Row) (meetingVal : Nat) : Option (List String) :=
  if ¬ should_include_detailed_info meetingVal then none
  else
    let paper_links := clean_text (getCol row "Paper Links")
    if paper_links ≠ "" then
      let links := ((splitComma paper_links.data).map pyStripList).filter (· ≠ [])
      let links := links.map (fun l => (⟨l⟩ : String))
      if links ≠ [] then some links else none
    else none

/-- A `MeetingRecord` of the output JSON; `none` in an `Option` field
means the key is absent from the emitted object. -/
structure Meeting where
  date : String
  presenter : String
  title : String
  type : String
  location : Option String
  abstract : Option String
  presenterBio : Option String
  paper_links : Option (List String)
  authors : Option String
deriving DecidableEq, Repr

/-- Body of the per-row `try` block of `convert_csv_to_json`
(lines 238–297): any failure path (unparseable date, a `ValueError`
from the re-parse at line 246 caught by the row-level `except`, free
slot, both required fields empty) yields `none`, i.e. the row is
skipped and contributes nothing. -/
def processRow (row : Row) (now : Nat) : Option Meeting :=
  match parse_date (getCol row "Date") with
  | none => none
  | some date_str =>
    match strptime fmtDotted date_str.data with
    | none => none
    | some md =>
      let meetingVal := dateVal md
      if is_free_slot row then none
      else
        let presenter := clean_text (getCol row "Presenter")
        let event_name := clean_text (getCol row "Event Name")
        let session_type := determine_session_type row
        if presenter = "" ∧ event_name = "" then none
        else
          let location := get_location_info row meetingVal now
          some
            { date := date_str
              presenter := if presenter ≠ "" then presenter else "TBA"
              title := if event_name ≠ "" then event_name else "TBA"
              type := session_type
              location := if location ≠ "" then some location else none
              abstract := get_abstract_info row meetingVal session_type
              presenterBio := get_bio_info row meetingVal session_type
              paper_links := get_paper_links row meetingVal
              authors :=
                if hasCol row "authors" ∧ clean_text (getCol row "authors") ≠ "" then
                  some (clean_text (getCol row "authors"))
                else none }

/-- The sort key of line 312: `datetime.strptime(x['date'], "%d.%m.%Y")`
(every emitted record's date re-parses, so the default is never used). -/
def meetingKey (m : Meeting) : Nat :=
  dateVal ((strptime fmtDotted m.date.data).getD ⟨1900, 1, 1⟩)

/-- Descending key order on meetings. -/
def keyRel (a b : Meeting) : Prop := meetingKey b ≤ meetingKey a

instance : DecidableRel keyRel := fun a b => Nat.decLe (meetingKey b) (meetingKey a)

instance : IsTotal Meeting keyRel :=
  ⟨fun a b => (Nat.le_total (meetingKey b) (meetingKey a)).imp id id⟩

instance : IsTrans Meeting keyRel :=
  ⟨fun _ _ _ h1 h2 => Nat.le_trans h2 h1⟩

/-- Model of `meetings.sort(key=..., reverse=True)` (line 312): Python's sort is
stable and `reverse=True` keeps equal-key elements in original order,
so it coincides with stable insertion sort under the descending key
relation. -/
def sortMeetings (l : List Meeting) : List Meeting :=
  List.insertionSort keyRel l

/-- Possible file-level read failures (lines 303–308). -/
inductive ReadError where
  | notFound
  | formatError (msg : String)
deriving DecidableEq, Repr

/-- Model of `convert_csv_to_json` (lines 222–328) after the row source: given
the outcome of reading the CSV (a file-level failure or the ordered
list of rows) and the injected current instant, return `none` on
file-level failure (the function returns `False` before the output file
is written, so no output is produced) or `some` final record list (the
document written to the output file). Row-level failures are the `none`
results of `processRow`, dropped by `filterMap` while the remaining
rows are still processed. -/
def convert_csv_to_json (input : Except ReadError (List Row)) (now : Nat) :
    Option (List Meeting) :=
  match input with
  | .error _ => none
  | .ok rows => some (sortMeetings (rows.filterMap (fun r => processRow r now)))

/-! ### Statement-side definitions -/

/-- The slash-date policy exactly as the spec words it (steps 3–4 of the
date normalizer): attempt `DD/MM/YYYY` and accept when strictly after
the cutover; otherwise attempt `MM/DD/YYYY` and accept when on or
before the cutover.  Stated from the spec, to be compared with
`parse_date`. -/
def claimSlashPolicy (t : List Char) : Option String :=
  let mdyAttempt :=
    match strptime fmtSlashMDY t with
    | some d => if dateVal d ≤ cutoffVal then some (fmtDate d) else none
    | none => none
  match strptime fmtSlashDMY t with
  | some d => if cutoffVal < dateVal d then some (fmtDate d) else mdyAttempt
  | none => mdyAttempt

/-- Exact canonical `DD.MM.YYYY` shape: two-digit day, two-digit month,
four-digit year, dots as separators. -/
def isCanonicalDotted (s : String) : Bool :=
  match s.data with
  | [d1, d2, '.', m1, m2, '.', y1, y2, y3, y4] =>
    d1.isDigit && d2.isDigit && m1.isDigit && m2.isDigit &&
      y1.isDigit && y2.isDigit && y3.isDigit && y4.isDigit
  | _ => false

/-- Every whitespace character is a plain space. -/
def onlyPlainSpaces (l : List Char) : Bool :=
  l.all (fun c => !(isPySpace c) || c = ' ')

/-- No two adjacent whitespace characters. -/
def noAdjWs : List Char → Bool
  | a :: b :: t => !(isPySpace a && isPySpace b) && noAdjWs (b :: t)
  | _ => true

/-- Head character is not whitespace (vacuously true for `[]`). -/
def noLeadWs (l : List Char) : Bool :=
  match l.head? with
  | some c => !isPySpace c
  | none => true

/-- End-to-end scenario A of the spec: `Date="15/03/2021"`,
`Presenter="Dr. Smith"`, `Event Name="Intro to NLP"`. -/
def rowScenarioA : Row :=
  [("Date", "15/03/2021"), ("Presenter", "Dr. Smith"), ("Event Name", "Intro to NLP")]

/-- A row whose date is already dotted but with single-digit day and
month, which `strptime("%d.%m.%Y")` accepts. -/
def rowSingleDigitDotted : Row :=
  [("Date", "5.3.2021"), ("Presenter", "Dr. X"), ("Event Name", "Talk")]

/-- A future meeting with only a remote link specified. -/
def rowZoomOnly : Row :=
  [("Date", "01.10.2025"), ("Presenter", "A"), ("Event Name", "B"),
   ("Zoom Link", "http://zoom.example/j/1")]

/-- The record the converter emits for `rowZoomOnly` when run before
the meeting date. -/
def recZoomOnly : Meeting :=
  { date := "01.10.2025", presenter := "A", title := "B", type := "seminar",
    location := some "Online (Zoom)", abstract := some "TBA", presenterBio := none,
    paper_links := none, authors := none }

/-- End-to-end scenario B of the spec: a free-for-booking row. -/
def rowScenarioB : Row :=
  [("Date", "05/10/2023"), ("Presenter", "Free for booking"), ("Event Name", "")]

/-- End-to-end scenario C of the spec: post-cutover journal club with
empty abstract. -/
def rowScenarioC : Row :=
  [("Date", "01.08.2025"), ("Presenter", "Dr. Lee"),
   ("Event Name", "Journal Club: Transformers"), ("Abstract", "")]

/-- The record the converter emits for `rowScenarioC` when run after
the meeting date. -/
def recScenarioC : Meeting :=
  { date := "01.08.2025", presenter := "Dr. Lee", title := "Journal Club: Transformers",
    type := "journal_club", location := none, abstract := none, presenterBio := none,
    paper_links := none, authors := none }

/-- A past seminar row with an empty presenter field. -/
def rowNoPresenter : Row :=
  [("Date", "01.01.2022"), ("Event Name", "T")]

/-- A row whose date no format parses. -/
def rowBadDate : Row :=
  [("Date", "not a date"), ("Presenter", "P"), ("Event Name", "T")]

/-- Three rows, the first and third sharing a date, for exercising the
sort. -/
def rowsStability : List Row :=
  [[("Date", "01.01.2022"), ("Presenter", "P1"), ("Event Name", "T1")],
   [("Date", "02.02.2023"), ("Presenter", "P2"), ("Event Name", "T2")],
   [("Date", "01.01.2022"), ("Presenter", "P3"), ("Event Name", "T3")]]

/-! ### Inversion of the per-row pipeline -/

theorem processRow_inv {row : Row} {now : Nat} {rec : Meeting}
    (h : processRow row now = some rec) :
    ∃ date_str md,
      parse_date (getCol row "Date") = some date_str ∧
      strptime fmtDotted date_str.data = some md ∧
      is_free_slot row = false ∧
      ¬(clean_text (getCol row "Presenter") = "" ∧ clean_text (getCol row "Event Name") = "") ∧
      rec =
        { date := date_str
          presenter :=
            if clean_text (getCol row "Presenter") ≠ "" then clean_text (getCol row "Presenter")
            else "TBA"
          title :=
            if clean_text (getCol row "Event Name") ≠ "" then clean_text (getCol row "Event Name")
            else "TBA"
          type := determine_session_type row
          location :=
            if get_location_info row (dateVal md) now ≠ "" then
              some (get_location_info row (dateVal md) now)
            else none
          abstract := get_abstract_info row (dateVal md) (determine_session_type row)
          presenterBio := get_bio_info row (dateVal md) (determine_session_type row)
          paper_links := get_paper_links row (dateVal md)
          authors :=
            if hasCol row "authors" ∧ clean_text (getCol row "authors") ≠ "" then
              some (clean_text (getCol row "authors"))
            else none } := by
  unfold processRow at h
  cases hp : parse_date (getCol row "Date") with
  | none => rw [hp] at h; exact absurd h (by simp)
  | some date_str =>
    rw [hp] at h
    simp only at h
    cases hmd : strptime fmtDotted date_str.data with
    | none => rw [hmd] at h; exact absurd h (by simp)
    | some md =>
      rw [hmd] at h
      simp only at h
      by_cases hfree : is_free_slot row = true
      · rw [if_pos hfree] at h; exact absurd h (by simp)
      · rw [if_neg hfree] at h
        by_cases hboth :
            clean_text (getCol row "Presenter") = "" ∧ clean_text (getCol row "Event Name") = ""
        · rw [if_pos hboth] at h; exact absurd h (by simp)
        · rw [if_neg hboth] at h
          injection h with h
          exact ⟨date_str, md, rfl, hmd, Bool.not_eq_true _ ▸ hfree, hboth, h.symm⟩

/-- A string with a non-empty suffix appended is non-empty. -/
theorem append_ne_empty_right (a b : String) (hb : b ≠ "") : a ++ b ≠ "" := by
  cases a with | mk la =>
  cases b with | mk lb =>
  intro hc
  apply hb
  have hdata : la ++ lb = [] := congrArg String.data hc
  rw [List.append_eq_nil.mp hdata |>.2]

/-! ### Separator facts about `runFmt` -/

theorem strptime_isSome_run {f : List FmtTok} {l : List Char}
    (h : (strptime f l).isSome = true) : (runFmt f l (1900, 1, 1)).isSome = true := by
  unfold strptime at h
  cases hr : runFmt f l (1900, 1, 1) with
  | none => rw [hr] at h; simp at h
  | some v => rfl

theorem runFmt_lit_head {c : Char} {ts : List FmtTok} {l : List Char} {acc : Nat × Nat × Nat}
    (h : (runFmt (FmtTok.lit c :: ts) l acc).isSome = true) : ∃ xs, l = c :: xs := by
  cases l with
  | nil => simp [runFmt] at h
  | cons x xs =>
    by_cases hx : x = c
    · exact ⟨xs, by rw [hx]⟩
    · simp [runFmt, hx] at h

theorem runFmt_ws_head {ts : List FmtTok} {l : List Char} {acc : Nat × Nat × Nat}
    (h : (runFmt (FmtTok.ws :: ts) l acc).isSome = true) :
    ∃ x xs, l = x :: xs ∧ isPySpace x = true := by
  cases l with
  | nil => simp [runFmt] at h
  | cons x xs =>
    by_cases hx : isPySpace x = true
    · exact ⟨x, xs, rfl, hx⟩
    · simp [runFmt, hx] at h

/-- A successful run of a format starting with a numeric field hands
the rest of the format exactly the input with its leading digit run
removed. -/
theorem runFmt_num_rest {tok : FmtTok}
    (htok : tok = FmtTok.fD ∨ tok = FmtTok.fM ∨ tok = FmtTok.fY)
    {ts : List FmtTok} {l : List Char} {acc : Nat × Nat × Nat}
    (h : (runFmt (tok :: ts) l acc).isSome = true) :
    ∃ acc', (runFmt ts (l.dropWhile Char.isDigit) acc').isSome = true := by
  rcases htok with h1 | h1 | h1 <;> subst h1
  · simp only [runFmt] at h
    split at h
    · split at h
      · exact ⟨_, h⟩
      · simp at h
    · simp at h
  · simp only [runFmt] at h
    split at h
    · split at h
      · exact ⟨_, h⟩
      · simp at h
    · simp at h
  · simp only [runFmt] at h
    split at h
    · exact ⟨_, h⟩
    · simp at h

/-- Specialised form: a format `num :: lit c :: …` succeeds only when
the character after the leading digit run is `c`. -/
theorem strptime_sep {tok : FmtTok}
    (htok : tok = FmtTok.fD ∨ tok = FmtTok.fM ∨ tok = FmtTok.fY)
    (c : Char) (ts : List FmtTok) (t : List Char)
    (h : (strptime (tok :: FmtTok.lit c :: ts) t).isSome = true) :
    ∃ xs, t.dropWhile Char.isDigit = c :: xs := by
  obtain ⟨acc', h2⟩ := runFmt_num_rest htok (strptime_isSome_run h)
  exact runFmt_lit_head h2

/-- A format `num :: lit c :: …` fails whenever the character after the
leading digit run is some other character `s`. -/
theorem strptime_lit_none {tok : FmtTok}
    (htok : tok = FmtTok.fD ∨ tok = FmtTok.fM ∨ tok = FmtTok.fY)
    (c s : Char) (ts : List FmtTok) (t xs : List Char)
    (hsep : t.dropWhile Char.isDigit = s :: xs) (hne : c ≠ s) :
    strptime (tok :: FmtTok.lit c :: ts) t = none := by
  cases hx : strptime (tok :: FmtTok.lit c :: ts) t with
  | none => rfl
  | some d =>
    obtain ⟨ys, hy⟩ := strptime_sep htok c ts t (by rw [hx]; rfl)
    rw [hsep] at hy
    injection hy with h1 h2
    exact absurd h1.symm hne

/-- A format `num :: ws :: …` fails whenever the character after the
leading digit run is not whitespace. -/
theorem strptime_ws_none {tok : FmtTok}
    (htok : tok = FmtTok.fD ∨ tok = FmtTok.fM ∨ tok = FmtTok.fY)
    (s : Char) (ts : List FmtTok) (t xs : List Char)
    (hsep : t.dropWhile Char.isDigit = s :: xs) (hns : isPySpace s = false) :
    strptime (tok :: FmtTok.ws :: ts) t = none := by
  cases hx : strptime (tok :: FmtTok.ws :: ts) t with
  | none => rfl
  | some d =>
    obtain ⟨acc', h2⟩ := runFmt_num_rest htok (strptime_isSome_run (by rw [hx]; rfl))
    obtain ⟨x, ys, hy, hxsp⟩ := runFmt_ws_head h2
    rw [hsep] at hy
    injection hy with h1 h2
    rw [h1] at hns
    rw [hxsp] at hns
    exact absurd hns (by simp)

/-! ### Claim C2 -/

/-- C2: on every input whose stripped form parses under `DD/MM/YYYY` or
`MM/DD/YYYY`, `parse_date` coincides with the spec's two ordered
attempts: `DD/MM` accepted exactly when strictly after the cutover,
then `MM/DD` accepted exactly when on or before the cutover (the
canonical-pattern branch and all fallback formats are unreachable on
slash-separated input). -/
theorem parse_date_slash_policy (s : String)
    (h : (strptime fmtSlashDMY (pyStripList s.data)).isSome = true ∨
         (strptime fmtSlashMDY (pyStripList s.data)).isSome = true) :
    parse_date s = claimSlashPolicy (pyStripList s.data) := by
  have htne : ¬ pyStripList s.data = [] := by
    intro h0
    rw [h0] at h
    rcases h with h | h <;> exact absurd h (by decide)
  obtain ⟨xs, hsep⟩ : ∃ xs, (pyStripList s.data).dropWhile Char.isDigit = '/' :: xs := by
    rcases h with h | h
    · exact strptime_sep (Or.inl rfl) '/' _ _ h
    · exact strptime_sep (Or.inr (Or.inl rfl)) '/' _ _ h
  have hdot : strptime fmtDotted (pyStripList s.data) = none :=
    strptime_lit_none (Or.inl rfl) '.' '/' _ _ xs hsep (by decide)
  have hdash1 : strptime fmtDashDMY (pyStripList s.data) = none :=
    strptime_lit_none (Or.inl rfl) '-' '/' _ _ xs hsep (by decide)
  have hiso : strptime fmtIso (pyStripList s.data) = none :=
    strptime_lit_none (Or.inr (Or.inr rfl)) '-' '/' _ _ xs hsep (by decide)
  have hb1 : strptime fmtDayBFull (pyStripList s.data) = none :=
    strptime_ws_none (Or.inl rfl) '/' _ _ xs hsep (by decide)
  have hb2 : strptime fmtDayBAbbr (pyStripList s.data) = none :=
    strptime_ws_none (Or.inl rfl) '/' _ _ xs hsep (by decide)
  have hdash2 : strptime fmtDashMDY (pyStripList s.data) = none :=
    strptime_lit_none (Or.inr (Or.inl rfl)) '-' '/' _ _ xs hsep (by decide)
  have hfall : tryFormats otherFormats (pyStripList s.data) = none := by
    simp only [tryFormats, otherFormats, hdash1, hiso, hb1, hb2, hdash2]
  unfold parse_date
  rw [if_neg htne]
  simp only
  unfold tryDotted
  rw [hdot]
  unfold claimSlashPolicy tryDMYafterCutoff tryMDYuptoCutoff
  cases hdmy : strptime fmtSlashDMY (pyStripList s.data) with
  | some d =>
    by_cases hcut : cutoffVal < dateVal d
    · simp only [if_pos hcut]
    · simp only [if_neg hcut]
      cases hmdy : strptime fmtSlashMDY (pyStripList s.data) with
      | some e =>
        by_cases hcut2 : dateVal e ≤ cutoffVal
        · simp only [if_pos hcut2]
        · simp only [if_neg hcut2, if_neg hcut, hfall]
      | none => simp only [hfall]
  | none =>
    cases hmdy : strptime fmtSlashMDY (pyStripList s.data) with
    | some e =>
      by_cases hcut2 : dateVal e ≤ cutoffVal
      · simp only [if_pos hcut2]
      · simp only [if_neg hcut2, hfall]
    | none => simp only [hfall]

/-- C2 witness: `"05/10/2023"` parses as DD/MM after the cutover and
both sides yield `"05.10.2023"`. -/
theorem parse_date_slash_policy_witness :
    parse_date "05/10/2023" = claimSlashPolicy (pyStripList "05/10/2023".data) :=
  parse_date_slash_policy "05/10/2023" (Or.inl (by decide))

/-! ### Claim C1 -/

/-- C1 counterexample: on the row `Date="15/03/2021"`,
`Presenter="Dr. Smith"`, `Event Name="Intro to NLP"` the converter
emits **no** record at all: `parse_date` rejects `"15/03/2021"`
(the DD/MM reading is on or before the cutover, the MM/DD reading is
syntactically impossible, and no fallback format matches), so the row
is skipped — contradicting the claim that the record
`{date:"15.03.2021", …}` is emitted. -/
theorem scenarioA_not_emitted :
    parse_date "15/03/2021" = none ∧ processRow rowScenarioA 0 = none := by
  decide

/-- C1 amended: for the scenario-A row, whatever the current time, the
converter emits no record; the date is classified unparseable because
the DD/MM reading lies on or before the format cutover (so branch 3 of
`parse_date` rejects it) and the MM/DD reading does not parse. -/
theorem scenarioA_dropped (now : Nat) : processRow rowScenarioA now = none := by
  unfold processRow
  rw [show parse_date (getCol rowScenarioA "Date") = none from by decide]

/-! ### Claim C3 -/

/-- C3: the code violates the canonical-format invariant.  The input
`"5.3.2021"` is accepted as-is by `parse_date`'s `%d.%m.%Y` branch
(Python's `strptime` accepts unpadded day and month), so the emitted
record's `date` field is `"5.3.2021"`, which is not in the two-digit
canonical `DD.MM.YYYY` shape — although it still parses back to a
calendar date. -/
theorem singleDigit_date_emitted_as_is :
    processRow rowSingleDigitDotted 20300101 =
      some { date := "5.3.2021", presenter := "Dr. X", title := "Talk", type := "seminar",
             location := none, abstract := none, presenterBio := none, paper_links := none,
             authors := none } ∧
    isCanonicalDotted "5.3.2021" = false ∧
    (strptime fmtDotted "5.3.2021".data).isSome = true := by
  decide

/-! ### Claim C7 -/

/-- C7: a row whose cleaned presenter or event name case-insensitively
equals `"free for booking"`, or whose cleaned presenter and event name
are both empty, never produces a record, regardless of its other
fields. -/
theorem free_or_empty_row_dropped (row : Row) (now : Nat)
    (h : pyLower (clean_text (getCol row "Presenter")) = "free for booking" ∨
         pyLower (clean_text (getCol row "Event Name")) = "free for booking" ∨
         (clean_text (getCol row "Presenter") = "" ∧
           clean_text (getCol row "Event Name") = "")) :
    processRow row now = none := by
  have hfree : is_free_slot row = true := by
    unfold is_free_slot
    simp only [Bool.or_eq_true, decide_eq_true_eq, Bool.and_eq_true]
    rcases h with h | h | ⟨h1, h2⟩
    · exact Or.inl (Or.inl h)
    · exact Or.inl (Or.inr h)
    · exact Or.inr ⟨h1, h2⟩
  unfold processRow
  cases parse_date (getCol row "Date") with
  | none => rfl
  | some ds =>
    cases hmd : strptime fmtDotted ds.data with
    | none => simp [hmd]
    | some md => simp [hmd, hfree]

/-- C7 witness: scenario B of the spec (`Presenter="Free for booking"`,
empty event name) is dropped. -/
theorem free_or_empty_row_dropped_witness : processRow rowScenarioB 0 = none :=
  free_or_empty_row_dropped rowScenarioB 0 (Or.inl (by decide))

/-! ### Claim C10 -/

/-- C10: every emitted record has a non-empty presenter and a non-empty
title, and an emptily-cleaned presenter (resp. event name) field is
replaced by the literal `"TBA"`. -/
theorem emitted_presenter_title_nonempty (row : Row) (now : Nat) (rec : Meeting)
    (h : processRow row now = some rec) :
    rec.presenter ≠ "" ∧ rec.title ≠ "" ∧
      (clean_text (getCol row "Presenter") = "" → rec.presenter = "TBA") ∧
      (clean_text (getCol row "Event Name") = "" → rec.title = "TBA") := by
  obtain ⟨ds, md, -, -, -, -, hrec⟩ := processRow_inv h
  subst hrec
  refine ⟨?_, ?_, ?_, ?_⟩
  · by_cases hp : clean_text (getCol row "Presenter") = "" <;> simp [hp]
  · by_cases he : clean_text (getCol row "Event Name") = "" <;> simp [he]
  · intro hp; simp [hp]
  · intro he; simp [he]

/-- C10 witness: a row with an empty presenter and non-empty title gets
presenter `"TBA"`. -/
theorem emitted_presenter_title_nonempty_witness :
    processRow rowNoPresenter 20300101 =
      some { date := "01.01.2022", presenter := "TBA", title := "T", type := "seminar",
             location := none, abstract := none, presenterBio := none, paper_links := none,
             authors := none } ∧
    ({ date := "01.01.2022", presenter := "TBA", title := "T", type := "seminar",
       location := none, abstract := none, presenterBio := none, paper_links := none,
       authors := none } : Meeting).presenter ≠ "" :=
  ⟨by decide, (emitted_presenter_title_nonempty rowNoPresenter 20300101 _ (by decide)).1⟩

/-! ### Claim C4 -/

/-- C4 counterexample: for a future meeting whose row specifies only a
remote link, the emitted location is the string `"Online (Zoom)"`, not
`"Online"` as the claim states. -/
theorem location_zoom_counterexample :
    processRow rowZoomOnly 0 = some recZoomOnly ∧
    recZoomOnly.location = some "Online (Zoom)" ∧
    recZoomOnly.location ≠ some "Online" := by
  decide

/-- C4 amended: a record for a meeting on or before the current time
has no location key; for a future meeting the location is
`"<room> (Alan Turing Institute) & online"` when a room is specified,
`"Online (Zoom)"` when only a remote link is specified, and `"TBA"`
when neither is specified. -/
theorem location_policy (row : Row) (now : Nat) (rec : Meeting)
    (h : processRow row now = some rec) :
    (meetingKey rec ≤ now → rec.location = none) ∧
    (now < meetingKey rec →
      rec.location =
        some (if clean_text (getCol row "Room") ≠ "" then
                clean_text (getCol row "Room") ++ " (Alan Turing Institute) & online"
              else if clean_text (getCol row "Zoom Link") ≠ "" then "Online (Zoom)"
              else "TBA")) := by
  obtain ⟨ds, md, hp, hmd, -, -, hrec⟩ := processRow_inv h
  have hdate : rec.date = ds := by rw [hrec]
  have hkey : meetingKey rec = dateVal md := by
    unfold meetingKey; rw [hdate, hmd]; rfl
  have hloc : rec.location =
      (if get_location_info row (dateVal md) now ≠ "" then
        some (get_location_info row (dateVal md) now)
      else none) := by rw [hrec]
  constructor
  · intro hpast
    have hglo : get_location_info row (dateVal md) now = "" := by
      unfold get_location_info
      rw [if_pos (hkey ▸ hpast)]
    rw [hloc, hglo]
    simp
  · intro hfut
    have hnotpast : ¬ dateVal md ≤ now := by omega
    have hglo : get_location_info row (dateVal md) now =
        (if clean_text (getCol row "Room") ≠ "" then
          clean_text (getCol row "Room") ++ " (Alan Turing Institute) & online"
         else if clean_text (getCol row "Zoom Link") ≠ "" then "Online (Zoom)"
         else "TBA") := by
      unfold get_location_info
      rw [if_neg hnotpast]
      by_cases hr : clean_text (getCol row "Room") = "" <;>
        by_cases hz : clean_text (getCol row "Zoom Link") = "" <;>
        simp [hr, hz]
    have hne : get_location_info row (dateVal md) now ≠ "" := by
      rw [hglo]
      by_cases hr : clean_text (getCol row "Room") = ""
      · by_cases hz : clean_text (getCol row "Zoom Link") = "" <;> simp [hr, hz]
      · rw [if_pos hr]
        exact append_ne_empty_right _ _ (by decide)
    rw [hloc, if_pos hne, hglo]

/-- C4 witness: applying the amended policy to the future zoom-only
row yields its location string. -/
theorem location_policy_witness :
    recZoomOnly.location =
      some (if clean_text (getCol rowZoomOnly "Room") ≠ "" then
              clean_text (getCol rowZoomOnly "Room") ++ " (Alan Turing Institute) & online"
            else if clean_text (getCol rowZoomOnly "Zoom Link") ≠ "" then "Online (Zoom)"
            else "TBA") :=
  (location_policy rowZoomOnly 0 recZoomOnly (by decide)).2 (by decide)

/-! ### Claim C5 -/

/-- C5: a record for a meeting on or before the detail-policy cutover
has no abstract key; after the cutover a seminar's abstract is the
cleaned `Abstract` field or `"TBA"` when that is empty, and a journal
club carries an abstract only when the cleaned field is non-empty. -/
theorem abstract_policy (row : Row) (now : Nat) (rec : Meeting)
    (h : processRow row now = some rec) :
    (meetingKey rec ≤ detailCutoffVal → rec.abstract = none) ∧
    (detailCutoffVal < meetingKey rec →
      (rec.type = "seminar" →
        rec.abstract =
          some (if clean_text (getCol row "Abstract") ≠ "" then
                  clean_text (getCol row "Abstract")
                else "TBA")) ∧
      (rec.type = "journal_club" →
        rec.abstract =
          (if clean_text (getCol row "Abstract") ≠ "" then
            some (clean_text (getCol row "Abstract"))
          else none))) := by
  obtain ⟨ds, md, hp, hmd, -, -, hrec⟩ := processRow_inv h
  have hdate : rec.date = ds := by rw [hrec]
  have hkey : meetingKey rec = dateVal md := by
    unfold meetingKey; rw [hdate, hmd]; rfl
  have habs : rec.abstract = get_abstract_info row (dateVal md) (determine_session_type row) := by
    rw [hrec]
  have htype : rec.type = determine_session_type row := by rw [hrec]
  constructor
  · intro hpast
    have hnsi : ¬ should_include_detailed_info (dateVal md) = true := by
      unfold should_include_detailed_info
      simp
      omega
    rw [habs]
    unfold get_abstract_info
    rw [if_pos hnsi]
  · intro hfut
    have hsi : ¬ ¬ should_include_detailed_info (dateVal md) = true := by
      unfold should_include_detailed_info
      simp
      omega
    constructor
    · intro hsem
      have hdet : determine_session_type row = "seminar" := htype ▸ hsem
      rw [habs]
      unfold get_abstract_info
      rw [if_neg hsi]
      by_cases ha : clean_text (getCol row "Abstract") = "" <;> simp [ha, hdet]
    · intro hjc
      have hdet : determine_session_type row = "journal_club" := htype ▸ hjc
      rw [habs]
      unfold get_abstract_info
      rw [if_neg hsi]
      by_cases ha : clean_text (getCol row "Abstract") = "" <;> simp [ha, hdet]

/-- C5 witness: scenario C of the spec — a post-cutover journal club
with an empty abstract gets no abstract key. -/
theorem abstract_policy_witness :
    recScenarioC.abstract =
      (if clean_text (getCol rowScenarioC "Abstract") ≠ "" then
        some (clean_text (getCol rowScenarioC "Abstract"))
      else none) :=
  ((abstract_policy rowScenarioC 20300101 recScenarioC (by decide)).2 (by decide)).2 (by decide)

/-! ### Claim C6 -/

/-- Filtering by an exact key value commutes with `orderedInsert` under
the descending key relation: the inserted element lands before every
equal-key element only when it is the textual head, which is exactly
stability of the fold-based insertion sort. -/
theorem filter_orderedInsert (k : Nat) (b : Meeting) (m : List Meeting) :
    (List.orderedInsert keyRel b m).filter (fun r => decide (meetingKey r = k)) =
      (if meetingKey b = k then
        b :: m.filter (fun r => decide (meetingKey r = k))
      else m.filter (fun r => decide (meetingKey r = k))) := by
  induction m with
  | nil =>
    by_cases hb : meetingKey b = k <;> simp [List.orderedInsert, hb]
  | cons x xs ih =>
    by_cases hr : keyRel b x
    · have hstep : List.orderedInsert keyRel b (x :: xs) = b :: x :: xs := by
        simp [List.orderedInsert, hr]
      rw [hstep]
      by_cases hb : meetingKey b = k <;> by_cases hx : meetingKey x = k <;>
        simp [List.filter_cons, hb, hx]
    · have hstep : List.orderedInsert keyRel b (x :: xs) =
          x :: List.orderedInsert keyRel b xs := by
        simp [List.orderedInsert, hr]
      rw [hstep]
      by_cases hb : meetingKey b = k
      · have hx : ¬ meetingKey x = k := by
          intro hx
          exact hr (show meetingKey x ≤ meetingKey b by rw [hb, hx])
        simp [List.filter_cons, hb, hx, ih]
      · by_cases hx : meetingKey x = k <;> simp [List.filter_cons, hb, hx, ih]

/-- Filtering by an exact key value commutes with the whole insertion
sort. -/
theorem filter_insertionSort (k : Nat) (l : List Meeting) :
    (List.insertionSort keyRel l).filter (fun r => decide (meetingKey r = k)) =
      l.filter (fun r => decide (meetingKey r = k)) := by
  induction l with
  | nil => rfl
  | cons a l ih =>
    rw [List.insertionSort, filter_orderedInsert]
    by_cases ha : meetingKey a = k <;> simp [List.filter_cons, ha, ih]

/-- C6: the emitted document is non-increasing in the calendar date
parsed back from each record's `date` field, and the records sharing
any fixed date value appear exactly in the order the accepted rows had
in the input. -/
theorem output_sorted_stable (rows : List Row) (now : Nat) (out : List Meeting)
    (h : convert_csv_to_json (.ok rows) now = some out) :
    List.Pairwise keyRel out ∧
      ∀ k : Nat,
        out.filter (fun r => decide (meetingKey r = k)) =
          (rows.filterMap (fun r => processRow r now)).filter
            (fun r => decide (meetingKey r = k)) := by
  have h' : some (sortMeetings (rows.filterMap (fun r => processRow r now))) = some out := h
  injection h' with h'
  subst h'
  constructor
  · exact List.sorted_insertionSort keyRel _
  · intro k
    exact filter_insertionSort k _

/-- C6 witness: the three-row example sorts descending with the two
equal-date rows kept in input order. -/
theorem output_sorted_stable_witness :
    List.Pairwise keyRel
      (sortMeetings (rowsStability.filterMap (fun r => processRow r 20300101))) ∧
    (sortMeetings (rowsStability.filterMap (fun r => processRow r 20300101))).filter
        (fun r => decide (meetingKey r = 20220101)) =
      (rowsStability.filterMap (fun r => processRow r 20300101)).filter
        (fun r => decide (meetingKey r = 20220101)) :=
  ⟨(output_sorted_stable rowsStability 20300101 _ rfl).1,
   (output_sorted_stable rowsStability 20300101 _ rfl).2 20220101⟩

/-! ### Claim C8 -/

theorem head_dropWhile_false (p : Char → Bool) (l : List Char) (c : Char)
    (h : (l.dropWhile p).head? = some c) : p c = false := by
  induction l with
  | nil => simp at h
  | cons a t ih =>
    by_cases ha : p a = true
    · rw [List.dropWhile_cons_of_pos ha] at h
      exact ih h
    · rw [List.dropWhile_cons_of_neg ha] at h
      simp only [List.head?_cons, Option.some.injEq] at h
      rw [← h]
      exact Bool.eq_false_iff.mpr ha

theorem noLeadWs_dropWhile (l : List Char) :
    noLeadWs (l.dropWhile isPySpace) = true := by
  unfold noLeadWs
  cases hh : (l.dropWhile isPySpace).head? with
  | none => rfl
  | some c =>
    show (!isPySpace c) = true
    rw [head_dropWhile_false isPySpace l c hh]
    rfl

theorem head?_of_prefix_of_ne {l₁ l₂ : List Char} (h : l₁ <+: l₂) (hne : l₁ ≠ []) :
    l₂.head? = l₁.head? := by
  obtain ⟨t, rfl⟩ := h
  cases l₁ with
  | nil => exact absurd rfl hne
  | cons a u => rfl

/-- The stripped list starts with a non-whitespace character. -/
theorem strip_noLead (l : List Char) : noLeadWs (pyStripList l) = true := by
  cases hh : (pyStripList l).head? with
  | none => unfold noLeadWs; rw [hh]
  | some c =>
    have hne : pyStripList l ≠ [] := by
      intro h0; rw [h0] at hh; exact absurd hh (by simp)
    have hpre : pyStripList l <+: l.dropWhile isPySpace :=
      List.rdropWhile_prefix isPySpace (l.dropWhile isPySpace)
    have hhead : (l.dropWhile isPySpace).head? = some c :=
      (head?_of_prefix_of_ne hpre hne).trans hh
    unfold noLeadWs
    rw [hh]
    show (!isPySpace c) = true
    rw [head_dropWhile_false isPySpace l c hhead]
    rfl

/-- The stripped list ends with a non-whitespace character (stated on
the reverse). -/
theorem strip_noTrail (l : List Char) : noLeadWs (pyStripList l).reverse = true := by
  unfold pyStripList
  rw [List.reverse_reverse]
  exact noLeadWs_dropWhile _

theorem dropWhile_eq_self_of_noLead {l : List Char} (h : noLeadWs l = true) :
    l.dropWhile isPySpace = l := by
  cases l with
  | nil => rfl
  | cons a t =>
    unfold noLeadWs at h
    simp only [List.head?_cons] at h
    have ha : isPySpace a = false := by simpa using h
    exact List.dropWhile_cons_of_neg (by simp [ha])

theorem strip_eq_self_of {u : List Char} (hlead : noLeadWs u = true)
    (htrail : noLeadWs u.reverse = true) : pyStripList u = u := by
  unfold pyStripList
  rw [dropWhile_eq_self_of_noLead hlead, dropWhile_eq_self_of_noLead htrail,
    List.reverse_reverse]

theorem collapse_ne_nil {l : List Char} (hl : l ≠ []) : collapseWs l ≠ [] := by
  induction l using collapseWs.induct with
  | case1 => exact absurd rfl hl
  | case2 c => simp [collapseWs]
  | case3 a b rest hab ih =>
    rw [collapseWs, if_pos hab]
    exact ih (by simp)
  | case4 a b rest hab ih =>
    rw [collapseWs, if_neg hab]
    simp

theorem collapse_head (l : List Char) (hl : l ≠ []) :
    ∃ c m, l.head? = some c ∧
      collapseWs l = (if isPySpace c then ' ' else c) :: m := by
  induction l using collapseWs.induct with
  | case1 => exact absurd rfl hl
  | case2 c => exact ⟨c, [], rfl, rfl⟩
  | case3 a b rest hab ih =>
    obtain ⟨c, m, hc, hm⟩ := ih (by simp)
    simp only [List.head?_cons, Option.some.injEq] at hc
    obtain ⟨ha, hb⟩ := Bool.and_eq_true .. |>.mp hab
    refine ⟨a, m, rfl, ?_⟩
    rw [collapseWs, if_pos hab, hm, ← hc, ha, hb]
    simp
  | case4 a b rest hab ih =>
    refine ⟨a, collapseWs (b :: rest), rfl, ?_⟩
    rw [collapseWs, if_neg hab]

theorem getLast?_cons_of_ne {x : Char} {m : List Char} (hm : m ≠ []) :
    (x :: m).getLast? = m.getLast? := by
  cases m with
  | nil => exact absurd rfl hm
  | cons y ys => rfl

theorem collapse_getLast (l : List Char) :
    (collapseWs l).getLast? = l.getLast?.map (fun c => if isPySpace c then ' ' else c) := by
  induction l using collapseWs.induct with
  | case1 => rfl
  | case2 c => rfl
  | case3 a b rest hab ih =>
    rw [collapseWs, if_pos hab, ih,
      show (a :: b :: rest).getLast? = (b :: rest).getLast? from
        getLast?_cons_of_ne (by simp)]
  | case4 a b rest hab ih =>
    rw [collapseWs, if_neg hab,
      getLast?_cons_of_ne (collapse_ne_nil (by simp)), ih,
      show (a :: b :: rest).getLast? = (b :: rest).getLast? from
        getLast?_cons_of_ne (by simp)]

theorem collapse_onlyPlain (l : List Char) : onlyPlainSpaces (collapseWs l) = true := by
  induction l using collapseWs.induct with
  | case1 => rfl
  | case2 c =>
    by_cases hc : isPySpace c = true <;> simp [collapseWs, onlyPlainSpaces, hc]
  | case3 a b rest hab ih => rw [collapseWs, if_pos hab]; exact ih
  | case4 a b rest hab ih =>
    rw [collapseWs, if_neg hab]
    unfold onlyPlainSpaces at ih ⊢
    rw [List.all_cons, ih, Bool.and_true]
    by_cases ha : isPySpace a = true <;> simp [ha]

theorem collapse_noAdj (l : List Char) : noAdjWs (collapseWs l) = true := by
  induction l using collapseWs.induct with
  | case1 => rfl
  | case2 c => rfl
  | case3 a b rest hab ih => rw [collapseWs, if_pos hab]; exact ih
  | case4 a b rest hab ih =>
    rw [collapseWs, if_neg hab]
    obtain ⟨c, m, hc, hm⟩ := collapse_head (b :: rest) (by simp)
    simp only [List.head?_cons, Option.some.injEq] at hc
    subst hc
    rw [hm]
    rw [hm] at ih
    unfold noAdjWs
    rw [ih, Bool.and_true]
    by_cases ha : isPySpace a = true
    · have hb : isPySpace b = false := by
        cases hbb : isPySpace b
        · rfl
        · rw [ha, hbb] at hab; exact absurd hab (by simp)
      simp [ha, hb]
    · simp [Bool.eq_false_iff.mpr ha]

theorem collapse_fixed {l : List Char} (hadj : noAdjWs l = true)
    (hplain : onlyPlainSpaces l = true) : collapseWs l = l := by
  induction l using collapseWs.induct with
  | case1 => rfl
  | case2 c =>
    unfold onlyPlainSpaces at hplain
    simp only [List.all_cons, List.all_nil, Bool.and_true] at hplain
    rw [collapseWs]
    by_cases hc : isPySpace c = true
    · rw [if_pos hc]
      rw [hc] at hplain
      simp only [Bool.not_true, Bool.false_or, decide_eq_true_eq] at hplain
      rw [hplain]
    · rw [if_neg hc]
  | case3 a b rest hab ih =>
    unfold noAdjWs at hadj
    rw [hab] at hadj
    exact absurd hadj (by simp)
  | case4 a b rest hab ih =>
    unfold noAdjWs at hadj
    rw [Bool.and_eq_true] at hadj
    unfold onlyPlainSpaces at hplain
    rw [List.all_cons, Bool.and_eq_true] at hplain
    rw [collapseWs, if_neg hab, ih hadj.2 hplain.2]
    by_cases ha : isPySpace a = true
    · have : a = ' ' := by
        have := hplain.1
        rw [ha] at this
        simpa using this
      rw [if_pos ha, this]
    · rw [if_neg ha]

theorem clean_noLead (l : List Char) : noLeadWs (cleanTextList l) = true := by
  unfold cleanTextList
  by_cases hs : pyStripList l = []
  · rw [if_pos hs]; rfl
  · rw [if_neg hs]
    obtain ⟨c, m, hc, hm⟩ := collapse_head (pyStripList l) hs
    have hcs : isPySpace c = false := by
      have := strip_noLead l
      unfold noLeadWs at this
      rw [hc] at this
      simpa using this
    rw [hm, if_neg (by simp [hcs])]
    show (!isPySpace c) = true
    rw [hcs]
    rfl

theorem clean_noTrail (l : List Char) : noLeadWs (cleanTextList l).reverse = true := by
  unfold cleanTextList
  by_cases hs : pyStripList l = []
  · rw [if_pos hs]; rfl
  · rw [if_neg hs]
    have hlast : (collapseWs (pyStripList l)).getLast? =
        (pyStripList l).getLast?.map (fun c => if isPySpace c then ' ' else c) :=
      collapse_getLast _
    unfold noLeadWs
    rw [List.head?_reverse, hlast]
    cases hg : (pyStripList l).getLast? with
    | none => rfl
    | some c =>
      have hcs : isPySpace c = false := by
        have := strip_noTrail l
        unfold noLeadWs at this
        rw [List.head?_reverse, hg] at this
        simpa using this
      simp [hcs]

theorem clean_onlyPlain (l : List Char) : onlyPlainSpaces (cleanTextList l) = true := by
  unfold cleanTextList
  by_cases hs : pyStripList l = []
  · rw [if_pos hs]; rfl
  · rw [if_neg hs]; exact collapse_onlyPlain _

theorem clean_noAdj (l : List Char) : noAdjWs (cleanTextList l) = true := by
  unfold cleanTextList
  by_cases hs : pyStripList l = []
  · rw [if_pos hs]; rfl
  · rw [if_neg hs]; exact collapse_noAdj _

theorem strip_clean (l : List Char) : pyStripList (cleanTextList l) = cleanTextList l :=
  strip_eq_self_of (clean_noLead l) (clean_noTrail l)

theorem clean_idem (l : List Char) : cleanTextList (cleanTextList l) = cleanTextList l := by
  by_cases hs : pyStripList l = []
  · have h0 : cleanTextList l = [] := by unfold cleanTextList; rw [if_pos hs]
    rw [h0]
    rfl
  · have hne : cleanTextList l ≠ [] := by
      unfold cleanTextList
      rw [if_neg hs]
      exact collapse_ne_nil hs
    have hstep : cleanTextList (cleanTextList l) =
        (if pyStripList (cleanTextList l) = [] then []
         else collapseWs (pyStripList (cleanTextList l))) := rfl
    rw [hstep, strip_clean, if_neg hne]
    exact collapse_fixed (clean_noAdj l) (clean_onlyPlain l)

/-- C8: the field cleaner is idempotent; its output is fully trimmed,
contains only plain single spaces as whitespace with no two adjacent,
and empty or whitespace-only input yields the empty string. -/
theorem clean_text_idempotent (s : String) :
    clean_text (clean_text s) = clean_text s ∧
    pyStripList (clean_text s).data = (clean_text s).data ∧
    onlyPlainSpaces (clean_text s).data = true ∧
    noAdjWs (clean_text s).data = true ∧
    (pyStripList s.data = [] → clean_text s = "") := by
  refine ⟨?_, strip_clean s.data, clean_onlyPlain s.data, clean_noAdj s.data, ?_⟩
  · show (⟨cleanTextList (cleanTextList s.data)⟩ : String) = ⟨cleanTextList s.data⟩
    rw [clean_idem]
  · intro h0
    show (⟨cleanTextList s.data⟩ : String) = ""
    unfold cleanTextList
    rw [if_pos h0]

/-- C8 witness: idempotence on a concrete messy string, and a
whitespace-only string cleans to empty. -/
theorem clean_text_idempotent_witness :
    clean_text (clean_text " a  b ") = clean_text " a  b " ∧ clean_text "  " = "" :=
  ⟨(clean_text_idempotent " a  b ").1,
   (clean_text_idempotent "  ").2.2.2.2 (by decide)⟩

/-! ### Claim C9 -/

/-- C9: a file-level read failure makes the conversion fail with no
output document at all, while a row that fails to process contributes
nothing and the surrounding rows are processed exactly as if it were
absent. -/
theorem file_failure_aborts_row_failure_skips :
    (∀ (e : ReadError) (now : Nat), convert_csv_to_json (.error e) now = none) ∧
    (∀ (pre suf : List Row) (bad : Row) (now : Nat), processRow bad now = none →
      convert_csv_to_json (.ok (pre ++ bad :: suf)) now =
        convert_csv_to_json (.ok (pre ++ suf)) now) := by
  constructor
  · intro e now; rfl
  · intro pre suf bad now hbad
    simp [convert_csv_to_json, List.filterMap_append, List.filterMap_cons, hbad]

/-- C9 witness: a missing input file yields no output, and a row with
an unparseable date is skipped without affecting the (empty) rest. -/
theorem file_failure_aborts_row_failure_skips_witness :
    convert_csv_to_json (.error ReadError.notFound) 0 = none ∧
    convert_csv_to_json (.ok [rowBadDate]) 0 = convert_csv_to_json (.ok []) 0 :=
  ⟨file_failure_aborts_row_failure_skips.1 ReadError.notFound 0,
   file_failure_aborts_row_failure_skips.2 [] [] rowBadDate 0 (by decide)⟩

end ConvertEvents
